import Mathlib

/-!
Verification of the Binance futures client core (`futures.py`).

The Python source is shallowly embedded: floats are modelled as rationals,
Python dicts as insertion-ordered association lists, raised exceptions as
`Except` results, and mutation as explicit state passing.  Where a method
mutates state before an exception escapes, the embedding returns the mutated
state alongside the error, matching Python's in-place semantics.

External collaborators (the `requests` transport and the websocket library)
are modelled by passing their observable outcome as an explicit argument.
-/

deriving instance DecidableEq for Except

namespace Futures

/-- Python exceptions that the embedded code paths can raise or catch. -/
inductive PyExc where
  | keyError (key : String)
  | typeError
  | valueError
  | jsonDecodeError
  | runtimeError
  | callbackExc (n : Nat)
  deriving DecidableEq, Repr

/-- Association-list lookup: first binding wins, like a Python dict. -/
def dictLookup {α : Type} : List (String × α) → String → Option α
  | [], _ => none
  | (k', v) :: rest, k => if k' = k then some v else dictLookup rest k

/-- In-place update of the value stored under a key, preserving key order
(entries under other keys are untouched). -/
def dictMapAt {α : Type} : List (String × α) → String → (α → α) → List (String × α)
  | [], _, _ => []
  | (k', v) :: rest, k, g => (k', if k' = k then g v else v) :: dictMapAt rest k g

/-- Python `d[k] = v`: update in place when the key exists, else append,
preserving insertion order. -/
def dictSet {α : Type} (m : List (String × α)) (k : String) (v : α) :
    List (String × α) :=
  match dictLookup m k with
  | some _ => dictMapAt m k fun _ => v
  | none => m ++ [(k, v)]

/-- Best bid/ask pair for one symbol (`self.prices[symbol]` entries). -/
structure Quote where
  bid : Rat
  ask : Rat
  deriving DecidableEq, Repr

/-- Modelled from the spec: `Contract` (models.py is not in the sources) —
an exchange-defined tradable instrument with a unique symbol and a lot size
(minimum quantity increment).  Only the attributes the embedded code reads
are kept. -/
structure Contract where
  symbol : String
  lot_size : Rat
  deriving DecidableEq, Repr

/-- Modelled from the spec: a `Trade` owned by a strategy — side (long/short),
quantity, entry price, status (open/closed) and a derived PnL field that the
dispatcher recomputes on matching ticks. -/
structure Trade where
  side : String
  quantity : Rat
  entry_price : Option Rat
  status : String
  pnl : Rat
  deriving DecidableEq, Repr

/-- Modelled from the spec: a registered strategy (strategies.py is not in
the sources) exposes the contract it trades, a mutable trade list, and a
tick callback.  The callback's behaviour is data: `tick_raises` says whether
`parse_trade`/`check_trade` raise on the next tick, and `ticks` records the
(price, quantity, timestamp) events the strategy has received. -/
structure Strategy where
  contract : Contract
  trades : List Trade
  ticks : List (Rat × Rat × Nat)
  tick_raises : Option PyExc
  deriving DecidableEq, Repr

/-- The mutable fields of `BinanceFuturesClient` that the verified code
paths touch: the secret credential, the price cache, the strategy registry
(a dict keyed by an integer id) and the websocket request-id counter. -/
structure ClientState where
  secret_key : String
  prices : List (String × Quote)
  strategies : List (Nat × Strategy)
  ws_id : Nat
  deriving DecidableEq, Repr

/-- The price-cache write in `on_message` / `get_bid_ask`: insert a fresh
quote when the symbol is absent, otherwise assign the `bid` field and then
the `ask` field of the existing entry (two sequential updates, as in the
source). -/
def pricesUpsert (m : List (String × Quote)) (sym : String) (b a : Rat) :
    List (String × Quote) :=
  match dictLookup m sym with
  | none => m ++ [(sym, { bid := b, ask := a })]
  | some _ =>
      dictMapAt (dictMapAt m sym fun q => { q with bid := b }) sym
        fun q => { q with ask := a }

/-- One trade of the PnL pass (futures.py lines 303-307).  Note the source
indexes the price cache with the literal string `'symbol'`, not the traded
symbol: `self.prices['symbol']['bid']`.  A missing key raises `KeyError`
before the assignment to `pnl` happens. -/
def pnlTrade (prices : List (String × Quote)) (trade : Trade) :
    Except PyExc Trade :=
  match trade.entry_price with
  | none => .ok trade
  | some entry =>
      if trade.status = "open" then
        if trade.side = "long" then
          match dictLookup prices "symbol" with
          | none => .error (.keyError "symbol")
          | some q => .ok { trade with pnl := (q.bid - entry) * trade.quantity }
        else if trade.side = "short" then
          match dictLookup prices "symbol" with
          | none => .error (.keyError "symbol")
          | some q => .ok { trade with pnl := (entry - q.ask) * trade.quantity }
        else .ok trade
      else .ok trade

/-- The inner `for trade in strat.trades` loop: trades updated before an
exception keep their new PnL; the raising trade and the rest are left as
they were. -/
def pnlTrades (prices : List (String × Quote)) :
    List Trade → Except PyExc Unit × List Trade
  | [] => (.ok (), [])
  | t :: ts =>
      match pnlTrade prices t with
      | .error ex => (.error ex, t :: ts)
      | .ok t' =>
          let (r, ts') := pnlTrades prices ts
          (r, t' :: ts')

/-- The outer `for b_index, strat in self.strategies.items()` loop of the
PnL pass, restricted to strategies whose contract symbol matches. -/
def pnlStrats (prices : List (String × Quote)) (sym : String) :
    List (Nat × Strategy) → Except PyExc Unit × List (Nat × Strategy)
  | [] => (.ok (), [])
  | (k, strat) :: rest =>
      if strat.contract.symbol = sym then
        match pnlTrades prices strat.trades with
        | (.error ex, ts') => (.error ex, (k, { strat with trades := ts' }) :: rest)
        | (.ok _, ts') =>
            let (r, rest') := pnlStrats prices sym rest
            (r, (k, { strat with trades := ts' }) :: rest')
      else
        let (r, rest') := pnlStrats prices sym rest
        (r, (k, strat) :: rest')

/-- A strategy after it has received one tick: the event is appended to
its received list. -/
def tickRecord (strat : Strategy) (p q : Rat) (t : Nat) : Strategy :=
  { strat with ticks := strat.ticks ++ [(p, q, t)] }

/-- Modelled from the spec: invoking a strategy's tick callbacks
(`parse_trade` then `check_trade`).  A raising callback raises before the
strategy records the tick; otherwise the tick is appended to the
strategy's received list. -/
def stratTick (strat : Strategy) (p q : Rat) (t : Nat) : Except PyExc Strategy :=
  match strat.tick_raises with
  | some ex => .error ex
  | none => .ok (tickRecord strat p q t)

/-- The `aggTrade` dispatch loop (futures.py lines 315-320): no
exception handling, so the first raising callback aborts the iteration. -/
def aggStrats (sym : String) (p q : Rat) (t : Nat) :
    List (Nat × Strategy) → Except PyExc Unit × List (Nat × Strategy)
  | [] => (.ok (), [])
  | (k, strat) :: rest =>
      if strat.contract.symbol = sym then
        match stratTick strat p q t with
        | .error ex => (.error ex, (k, strat) :: rest)
        | .ok strat' =>
            let (r, rest') := aggStrats sym p q t rest
            (r, (k, strat') :: rest')
      else
        let (r, rest') := aggStrats sym p q t rest
        (r, (k, strat) :: rest')

/-- The observable outcome of one HTTP call made by the `requests`
library: either a raised transport exception, or a response with a status
code and an already-decoded JSON body. -/
inductive RestOutcome (α : Type) where
  | transportError
  | response (status : Nat) (body : α)
  deriving DecidableEq, Repr

/-- A failed call: transport exception or non-200 status. -/
def RestOutcome.isFailure {α : Type} : RestOutcome α → Bool
  | .transportError => true
  | .response status _ => status != 200

/-- `BinanceFuturesClient.make_request`: for GET/POST/DELETE, a transport
exception is caught and logged and `None` is returned; a 200 response
yields its body; any other status is logged and the function falls off the
end, returning `None`.  Any other method raises `ValueError`. -/
def make_request {α : Type} (method : String) (out : RestOutcome α) :
    Except PyExc (Option α) :=
  if method = "GET" ∨ method = "POST" ∨ method = "DELETE" then
    match out with
    | .transportError => .ok none
    | .response status body => if status = 200 then .ok (some body) else .ok none
  else .error .valueError

/-- Body of a `ticker/bookTicker` REST response (string prices already
converted by `float(...)`). -/
structure ObData where
  bidPrice : Rat
  askPrice : Rat
  deriving DecidableEq, Repr

/-- `BinanceFuturesClient.get_bid_ask`: on a successful request the quote
is upserted into the cache; the final `return self.prices[contract.symbol]`
sits outside the success check, so on a failed request it returns whatever
quote is cached — raising `KeyError` when the symbol was never quoted. -/
def get_bid_ask (st : ClientState) (c : Contract) (out : RestOutcome ObData) :
    Except PyExc Quote × ClientState :=
  match make_request "GET" out with
  | .error ex => (.error ex, st)
  | .ok obData =>
      let st' := match obData with
        | some ob =>
            { st with prices := pricesUpsert st.prices c.symbol ob.bidPrice ob.askPrice }
        | none => st
      match dictLookup st'.prices c.symbol with
      | some q => (.ok q, st')
      | none => (.error (.keyError c.symbol), st')

/-- One entry of the account snapshot's `assets` array. -/
structure AssetBalance where
  asset : String
  wallet_balance : Rat
  deriving DecidableEq, Repr

/-- Body of an account-snapshot REST response. -/
structure AccountData where
  assets : List AssetBalance
  deriving DecidableEq, Repr

/-- Modelled from the spec: `Balance` (models.py is not in the sources) —
a per-asset snapshot carrying the wallet balance. -/
structure Balance where
  wallet_balance : Rat
  deriving DecidableEq, Repr

/-- `BinanceFuturesClient.get_balances`: the signed account request (the
timestamp/signature parameters do not affect the modelled result).  The
loop `for b in balance_data['assets']` runs without a `None` check, so a
failed request (`balance_data is None`) raises `TypeError`. -/
def get_balances (out : RestOutcome AccountData) :
    Except PyExc (List (String × Balance)) :=
  match make_request "GET" out with
  | .error ex => .error ex
  | .ok none => .error .typeError
  | .ok (some bd) =>
      .ok (bd.assets.foldl
        (fun m b => dictSet m b.asset { wallet_balance := b.wallet_balance }) [])

/-- Python's built-in `round` to an integer: round half to even. -/
def pyRound (x : Rat) : Int :=
  let f := ⌊x⌋
  let r := x - f
  if r < 1/2 then f
  else if 1/2 < r then f + 1
  else if f % 2 = 0 then f else f + 1

/-- Python's `round(x, 8)`: round to eight decimal places, half to even. -/
def pyRound8 (x : Rat) : Rat := (pyRound (x * 100000000) : Rat) / 100000000

/-- `BinanceFuturesClient.get_trade_size`: the balance fetch's outcome is
passed in (`self.get_balances()` either raises or returns a dict — its
`if balance is not None` else-branch is unreachable).  Extracts the USDT
wallet balance (`None` when absent), computes the raw quantity and rounds:
`round(round(trade_size / lot_size) * lot_size, 8)`. -/
def get_trade_size (balanceRes : Except PyExc (List (String × Balance)))
    (c : Contract) (price : Rat) (balance_pct : Rat) : Except PyExc (Option Rat) :=
  match balanceRes with
  | .error ex => .error ex
  | .ok balance =>
      match dictLookup balance "USDT" with
      | none => .ok none
      | some bal =>
          let trade_size := (bal.wallet_balance * (balance_pct / 100)) / price
          .ok (some (pyRound8 ((pyRound (trade_size / c.lot_size) : Rat) * c.lot_size)))

/-- The trade-sizing rule as the spec words it: compute
`quantity = (balance * balance_fraction_pct / 100) / price`, then round to
the nearest multiple of the contract's lot size (ties to even, as the
platform's rounding does). -/
def trade_size_spec (wallet price pct lot : Rat) : Rat :=
  (pyRound ((wallet * pct / 100 / price) / lot) : Rat) * lot

/-- A parsed inbound JSON message: the optional event discriminator
`data['e']` and the payload fields the two handled channels read. -/
structure JsonMsg where
  e : Option String
  s : String
  b : Rat
  a : Rat
  p : Rat
  q : Rat
  t : Nat
  deriving DecidableEq, Repr

/-- An inbound websocket frame: either text that is not valid JSON, or a
parsed message. -/
inductive StreamMsg where
  | malformed
  | parsed (j : JsonMsg)
  deriving DecidableEq, Repr

/-- `json.loads`: raises `json.JSONDecodeError` on text that is not valid
JSON, otherwise yields the parsed value (library contract). -/
def json_loads : StreamMsg → Except PyExc JsonMsg
  | .malformed => .error .jsonDecodeError
  | .parsed j => .ok j

/-- The `except RuntimeError` clause guarding the PnL pass: a
`RuntimeError` is logged and absorbed, every other exception propagates. -/
def catchRuntime : Except PyExc Unit → Except PyExc Unit
  | .error .runtimeError => .ok ()
  | r => r

/-- `BinanceFuturesClient.on_message`: parse the frame, and on a
`bookTicker` event write the quote into the cache and run the PnL pass
(guarded only by `except RuntimeError`); on an `aggTrade` event dispatch to
every matching strategy with no exception handling.  The two event tests
are separate `if`s in the source, but a message matches at most one, so
they are embedded as a chain. -/
def on_message (st : ClientState) (msg : StreamMsg) :
    Except PyExc Unit × ClientState :=
  match json_loads msg with
  | .error ex => (.error ex, st)
  | .ok data =>
      match data.e with
      | none => (.ok (), st)
      | some ev =>
          if ev = "bookTicker" then
            let prices' := pricesUpsert st.prices data.s data.b data.a
            let (r, strats') := pnlStrats prices' data.s st.strategies
            (catchRuntime r, { st with prices := prices', strategies := strats' })
          else if ev = "aggTrade" then
            let (r, strats') := aggStrats data.s data.p data.q data.t st.strategies
            (r, { st with strategies := strats' })
          else (.ok (), st)

/-- The outbound subscribe request built by `subscribe_channel`. -/
structure SubMsg where
  method : String
  params : List String
  id : Nat
  deriving DecidableEq, Repr

/-- `BinanceFuturesClient.subscribe_channel`: builds one request naming
`symbol@channel` for every contract, tagged with the current `_ws_id`;
the send is wrapped in try/except (its outcome `sendOk` only gets logged),
and the counter is incremented afterwards in either case. -/
def subscribe_channel (st : ClientState) (contracts : List Contract)
    (channel : String) (_sendOk : Bool) : SubMsg × ClientState :=
  ({ method := "SUBSCRIBE",
     params := contracts.map fun c => c.symbol.toLower ++ "@" ++ channel,
     id := st.ws_id },
   { st with ws_id := st.ws_id + 1 })

/-- The requests produced by a sequence of `subscribe_channel` calls on one
session, threading the session state through. -/
def runSubscribes (st : ClientState) :
    List (List Contract × String × Bool) → List SubMsg
  | [] => []
  | (cs, ch, ok) :: rest =>
      let (m, st') := subscribe_channel st cs ch ok
      m :: runSubscribes st' rest

/-- An operation that may write the market-data cache: a stream frame
handled by `on_message`, or a REST bid/ask snapshot via `get_bid_ask`. -/
inductive CacheOp where
  | stream (msg : StreamMsg)
  | snapshot (c : Contract) (out : RestOutcome ObData)

/-- The client state after one cache-writing operation (exceptions escape
the operation, but the in-place mutations performed before them persist). -/
def cacheStep (st : ClientState) : CacheOp → ClientState
  | .stream msg => (on_message st msg).2
  | .snapshot c out => (get_bid_ask st c out).2

/-- The client state after a sequence of cache-writing operations. -/
def runCacheOps (st : ClientState) : List CacheOp → ClientState
  | [] => st
  | op :: ops => runCacheOps (cacheStep st op) ops

/-- The symbols present in the price cache, in insertion order. -/
def priceKeys (st : ClientState) : List String := st.prices.map Prod.fst

/-- Whether iteration `n` of the `start_ws` while-loop is reached: the
loop runs until a check of the reconnect flag comes back false.  `flag n`
is the value of `self.reconnect` read at iteration `n` (it may be cleared
concurrently). -/
def wsAlive (flag : Nat → Bool) : Nat → Bool
  | 0 => true
  | n + 1 => wsAlive flag n && flag n

/-- Whether iteration `n` makes a connect attempt (`ws.run_forever()`). -/
def wsConnects (flag : Nat → Bool) (n : Nat) : Bool :=
  wsAlive flag n && flag n

/-- Observable events of one loop iteration. -/
inductive WsEvent where
  | runConn
  | backoff (secs : Nat)
  | exitLoop
  deriving DecidableEq, Repr

/-- The events of iteration `n` of `start_ws`: with the flag set, run the
connection until it ends (errors are caught and logged) and then sleep the
fixed 2-second backoff; with the flag cleared, `break` out immediately;
after a break, nothing further happens. -/
def wsIter (flag : Nat → Bool) (n : Nat) : List WsEvent :=
  if wsAlive flag n then
    (if flag n then [.runConn, .backoff 2] else [.exitLoop])
  else []

/-- One entry of the exchange-info `symbols` array (the fields
`get_contracts` and the `Contract` constructor read). -/
structure ContractData where
  symbol : String
  marginAsset : String
  lot_size : Rat
  deriving DecidableEq, Repr

/-- Body of an exchange-info REST response. -/
structure ExchangeData where
  symbols : List ContractData
  deriving DecidableEq, Repr

/-- The `for contract_data in exchange_info['symbols']` loop: skip entries
whose margin asset is BUSD, store the rest keyed by symbol. -/
def contractsFold (acc : List (String × Contract)) :
    List ContractData → List (String × Contract)
  | [] => acc
  | cd :: rest =>
      contractsFold
        (if cd.marginAsset ≠ "BUSD" then
          dictSet acc cd.symbol { symbol := cd.symbol, lot_size := cd.lot_size }
        else acc) rest

/-- `BinanceFuturesClient.get_contracts`: on success, the filtered symbol
map; when the request failed the `if exchange_info is not None` guard is
skipped and the function implicitly returns `None`. -/
def get_contracts (out : RestOutcome ExchangeData) :
    Except PyExc (Option (List (String × Contract))) :=
  match make_request "GET" out with
  | .error ex => .error ex
  | .ok none => .ok none
  | .ok (some info) => .ok (some (contractsFold [] info.symbols))

/-! ### The signer: UTF-8, `urlencode`, SHA-256, HMAC (library contracts) -/

/-- UTF-8 encoding of one code point. -/
def utf8Char (c : Nat) : List Nat :=
  if c < 128 then [c]
  else if c < 2048 then [192 ||| (c >>> 6), 128 ||| (c &&& 63)]
  else if c < 65536 then
    [224 ||| (c >>> 12), 128 ||| ((c >>> 6) &&& 63), 128 ||| (c &&& 63)]
  else
    [240 ||| (c >>> 18), 128 ||| ((c >>> 12) &&& 63),
     128 ||| ((c >>> 6) &&& 63), 128 ||| (c &&& 63)]

/-- `str.encode()`: the UTF-8 bytes of a string. -/
def strBytes (s : String) : List Nat :=
  s.data.foldr (fun c acc => utf8Char c.toNat ++ acc) []

/-- The characters `urllib.parse.quote_plus` leaves unencoded: ASCII
letters, digits, and `-`, `.`, `_`, `~`. -/
def urlSafe (c : Char) : Bool :=
  (65 ≤ c.toNat && c.toNat ≤ 90) || (97 ≤ c.toNat && c.toNat ≤ 122) ||
  (48 ≤ c.toNat && c.toNat ≤ 57) || c = '-' || c = '.' || c = '_' || c = '~'

/-- Uppercase hex digit. -/
def hexUpper (n : Nat) : Char :=
  (String.data "0123456789ABCDEF").getD n '0'

/-- Percent-encoding of one byte, uppercase hex. -/
def pctByte (b : Nat) : String :=
  String.mk ['%', hexUpper (b / 16), hexUpper (b % 16)]

/-- `urllib.parse.quote_plus` with empty `safe`: safe characters pass
through, space becomes `+`, everything else is percent-encoded per UTF-8
byte. -/
def quote_plus (s : String) : String :=
  String.join (s.data.map fun c =>
    if urlSafe c then String.mk [c]
    else if c = ' ' then "+"
    else String.join ((utf8Char c.toNat).map pctByte))

/-- `urllib.parse.urlencode` on string-valued parameters: the
order-preserving `k=v` concatenation joined by `&`, each side
percent-encoded by `quote_plus`. -/
def urlencode (data : List (String × String)) : String :=
  String.intercalate "&" (data.map fun kv => quote_plus kv.1 ++ "=" ++ quote_plus kv.2)

/-- Truncation to a 32-bit word. -/
def w32 (n : Nat) : Nat := n % 4294967296

/-- 32-bit right rotation. -/
def rotr32 (k x : Nat) : Nat := w32 ((x >>> k) ||| (x <<< (32 - k)))

/-- SHA-256 `Ch`. -/
def shaCh (x y z : Nat) : Nat := (x &&& y) ^^^ ((x ^^^ 4294967295) &&& z)

/-- SHA-256 `Maj`. -/
def shaMaj (x y z : Nat) : Nat := (x &&& y) ^^^ (x &&& z) ^^^ (y &&& z)

/-- SHA-256 big sigma 0. -/
def bsig0 (x : Nat) : Nat := rotr32 2 x ^^^ rotr32 13 x ^^^ rotr32 22 x

/-- SHA-256 big sigma 1. -/
def bsig1 (x : Nat) : Nat := rotr32 6 x ^^^ rotr32 11 x ^^^ rotr32 25 x

/-- SHA-256 small sigma 0. -/
def ssig0 (x : Nat) : Nat := rotr32 7 x ^^^ rotr32 18 x ^^^ (x >>> 3)

/-- SHA-256 small sigma 1. -/
def ssig1 (x : Nat) : Nat := rotr32 17 x ^^^ rotr32 19 x ^^^ (x >>> 10)

/-- The 64 SHA-256 round constants. -/
def shaK : List Nat :=
  [1116352408, 1899447441, 3049323471, 3921009573, 961987163, 1508970993,
   2453635748, 2870763221, 3624381080, 310598401, 607225278, 1426881987,
   1925078388, 2162078206, 2614888103, 3248222580, 3835390401, 4022224774,
   264347078, 604807628, 770255983, 1249150122, 1555081692, 1996064986,
   2554220882, 2821834349, 2952996808, 3210313671, 3336571891, 3584528711,
   113926993, 338241895, 666307205, 773529912, 1294757372, 1396182291,
   1695183700, 1986661051, 2177026350, 2456956037, 2730485921, 2820302411,
   3259730800, 3345764771, 3516065817, 3600352804, 4094571909, 275423344,
   430227734, 506948616, 659060556, 883997877, 958139571, 1322822218,
   1537002063, 1747873779, 1955562222, 2024104815, 2227730452, 2361852424,
   2428436474, 2756734187, 3204031479, 3329325298]

/-- The initial SHA-256 hash state. -/
def shaH0 : List Nat :=
  [1779033703, 3144134277, 1013904242, 2773480762,
   1359893119, 2600822924, 528734635, 1541459225]

/-- The eight working registers of the compression function. -/
structure ShaRegs where
  a : Nat
  b : Nat
  c : Nat
  d : Nat
  e : Nat
  f : Nat
  g : Nat
  h : Nat

/-- One compression round; `wk` is the pair (schedule word, constant). -/
def shaStep (r : ShaRegs) (wk : Nat × Nat) : ShaRegs :=
  let t1 := w32 (r.h + bsig1 r.e + shaCh r.e r.f r.g + wk.2 + wk.1)
  let t2 := w32 (bsig0 r.a + shaMaj r.a r.b r.c)
  ⟨w32 (t1 + t2), r.a, r.b, r.c, w32 (r.d + t1), r.e, r.f, r.g⟩

/-- Big-endian 32-bit words from bytes. -/
def wordsOfBytes : List Nat → List Nat
  | b0 :: b1 :: b2 :: b3 :: rest =>
      ((b0 <<< 24) ||| (b1 <<< 16) ||| (b2 <<< 8) ||| b3) :: wordsOfBytes rest
  | _ => []

/-- Extend the 16 message words by `n` scheduled words. -/
def shaSchedule (ws : List Nat) : Nat → List Nat
  | 0 => ws
  | n + 1 =>
      let ws' := shaSchedule ws n
      let l := ws'.length
      ws' ++ [w32 (ssig1 (ws'.getD (l - 2) 0) + ws'.getD (l - 7) 0 +
                   ssig0 (ws'.getD (l - 15) 0) + ws'.getD (l - 16) 0)]

/-- Compress one 64-byte block into the running hash (eight words). -/
def shaBlock (hs : List Nat) (block : List Nat) : List Nat :=
  let w := shaSchedule (wordsOfBytes block) 48
  let r0 : ShaRegs :=
    ⟨hs.getD 0 0, hs.getD 1 0, hs.getD 2 0, hs.getD 3 0,
     hs.getD 4 0, hs.getD 5 0, hs.getD 6 0, hs.getD 7 0⟩
  let r := (w.zip shaK).foldl shaStep r0
  [w32 (hs.getD 0 0 + r.a), w32 (hs.getD 1 0 + r.b), w32 (hs.getD 2 0 + r.c),
   w32 (hs.getD 3 0 + r.d), w32 (hs.getD 4 0 + r.e), w32 (hs.getD 5 0 + r.f),
   w32 (hs.getD 6 0 + r.g), w32 (hs.getD 7 0 + r.h)]

/-- Big-endian bytes of a 64-bit length. -/
def bytesOfLen (n : Nat) : List Nat :=
  [(n >>> 56) % 256, (n >>> 48) % 256, (n >>> 40) % 256, (n >>> 32) % 256,
   (n >>> 24) % 256, (n >>> 16) % 256, (n >>> 8) % 256, n % 256]

/-- SHA-256 padding: `0x80`, zeros to 56 mod 64, then the bit length. -/
def shaPad (msg : List Nat) : List Nat :=
  msg ++ [128] ++ List.replicate ((119 - msg.length % 64) % 64) 0 ++
    bytesOfLen (8 * msg.length)

/-- Split into 64-byte blocks (fuel-driven; fuel bounds the length). -/
def chunk64 : Nat → List Nat → List (List Nat)
  | 0, _ => []
  | _, [] => []
  | fuel + 1, l => l.take 64 :: chunk64 fuel (l.drop 64)

/-- Big-endian bytes of one 32-bit word. -/
def bytesOfWord (w : Nat) : List Nat :=
  [(w >>> 24) % 256, (w >>> 16) % 256, (w >>> 8) % 256, w % 256]

/-- SHA-256 digest (32 bytes) of a byte string. -/
def sha256 (msg : List Nat) : List Nat :=
  let padded := shaPad msg
  let hs := (chunk64 padded.length padded).foldl shaBlock shaH0
  hs.foldr (fun wrd acc => bytesOfWord wrd ++ acc) []

/-- HMAC-SHA256 (RFC 2104): digest bytes of `msg` under `key`. -/
def hmacSha256 (key msg : List Nat) : List Nat :=
  let k0 := if 64 < key.length then sha256 key else key
  let k1 := k0 ++ List.replicate (64 - k0.length) 0
  sha256 ((k1.map (fun b => b ^^^ 92)) ++
          sha256 ((k1.map (fun b => b ^^^ 54)) ++ msg))

/-- Lowercase hex digit. -/
def hexLower (n : Nat) : Char :=
  (String.data "0123456789abcdef").getD n '0'

/-- `.hexdigest()`: lowercase hex of a byte string. -/
def hexDigest (bytes : List Nat) : String :=
  String.mk (bytes.foldr (fun b acc => hexLower (b / 16) :: hexLower (b % 16) :: acc) [])

/-- `BinanceFuturesClient.generate_signature`: the hex HMAC-SHA256 of the
url-encoded parameters, keyed by the client's secret key:
`hmac.new(self.secret_key.encode(), urlencode(data).encode(),
hashlib.sha256).hexdigest()`. -/
def ClientState.generate_signature (st : ClientState) (data : List (String × String)) :
    String :=
  hexDigest (hmacSha256 (strBytes st.secret_key) (strBytes (urlencode data)))

/-! ### Concrete instances used by individual results -/

/-- An open long trade, entry 100, quantity 2 (the spec's PnL example). -/
def c1Trade : Trade :=
  { side := "long", quantity := 2, entry_price := some 100, status := "open", pnl := 0 }

/-- A strategy on BTCUSDT holding `c1Trade`. -/
def c1Strategy : Strategy :=
  { contract := { symbol := "BTCUSDT", lot_size := 1/100 },
    trades := [c1Trade], ticks := [], tick_raises := none }

/-- A client with an empty price cache and `c1Strategy` registered. -/
def c1State : ClientState :=
  { secret_key := "k", prices := [], strategies := [(1, c1Strategy)], ws_id := 1 }

/-- A book-ticker update for BTCUSDT with bid 105, ask 106. -/
def c1Msg : StreamMsg :=
  .parsed { e := some "bookTicker", s := "BTCUSDT", b := 105, a := 106, p := 0, q := 0, t := 0 }

/-- A strategy on ETHUSDT whose tick callback raises. -/
def c2BadStrat : Strategy :=
  { contract := { symbol := "ETHUSDT", lot_size := 1/1000 },
    trades := [], ticks := [], tick_raises := some (.callbackExc 7) }

/-- A well-behaved strategy on ETHUSDT. -/
def c2OkStrat : Strategy :=
  { contract := { symbol := "ETHUSDT", lot_size := 1/1000 },
    trades := [], ticks := [], tick_raises := none }

/-- A client with the raising strategy registered before the healthy one. -/
def c2State : ClientState :=
  { secret_key := "k", prices := [], strategies := [(1, c2BadStrat), (2, c2OkStrat)],
    ws_id := 1 }

/-- A client with the healthy strategy registered before the raising one. -/
def c2wState : ClientState :=
  { secret_key := "k", prices := [], strategies := [(5, c2OkStrat), (6, c2BadStrat)],
    ws_id := 1 }

/-- An aggregated-trade event for ETHUSDT. -/
def c2Json : JsonMsg :=
  { e := some "aggTrade", s := "ETHUSDT", b := 0, a := 0, p := 1900, q := 3, t := 777 }

/-- The BTCUSDT contract. -/
def c3Contract : Contract := { symbol := "BTCUSDT", lot_size := 1/100 }

/-- A client that has never cached a BTCUSDT quote. -/
def c3State : ClientState :=
  { secret_key := "k", prices := [], strategies := [], ws_id := 1 }

/-- A client holding a stale cached BTCUSDT quote. -/
def c3wState : ClientState :=
  { secret_key := "k", prices := [("BTCUSDT", { bid := 9, ask := 10 })],
    strategies := [], ws_id := 1 }

/-- Two clients sharing a secret key but differing in every mutable field. -/
def c5StateA : ClientState :=
  { secret_key := "JefeKey01", prices := [], strategies := [], ws_id := 1 }

/-- See `c5StateA`. -/
def c5StateB : ClientState :=
  { secret_key := "JefeKey01",
    prices := [("BTCUSDT", { bid := 105, ask := 106 })],
    strategies := [(3, { contract := { symbol := "BTCUSDT", lot_size := 1/100 },
                         trades := [], ticks := [], tick_raises := none })],
    ws_id := 42 }

/-- An ordered parameter list for a signed request. -/
def c5Params : List (String × String) :=
  [("symbol", "BTCUSDT"), ("timestamp", "1600000000000")]

/-- A client with cached state, used to show unrecognized frames change
nothing. -/
def c8State : ClientState :=
  { secret_key := "k", prices := [("BTCUSDT", { bid := 1, ask := 2 })],
    strategies := [(1, { contract := { symbol := "BTCUSDT", lot_size := 1/100 },
                         trades := [], ticks := [], tick_raises := none })],
    ws_id := 3 }

/-- A valid JSON message with an unrecognized event discriminator. -/
def c8UnknownJson : JsonMsg :=
  { e := some "depth", s := "BTCUSDT", b := 7, a := 8, p := 9, q := 10, t := 11 }

/-- A valid JSON message with no event discriminator. -/
def c8NoEventJson : JsonMsg :=
  { e := none, s := "BTCUSDT", b := 7, a := 8, p := 9, q := 10, t := 11 }

/-- A reconnect flag that is read as set at iterations 0 and 1 and as
cleared from iteration 2 on. -/
def c9Flag : Nat → Bool := fun n => decide (n < 2)

/-- An exchange-info body with one USDT-margined and one BUSD-margined
symbol. -/
def c10Data : ExchangeData :=
  { symbols := [{ symbol := "BTCUSDT", marginAsset := "USDT", lot_size := 1/1000 },
                { symbol := "BTCBUSD", marginAsset := "BUSD", lot_size := 1/10 }] }

/-! ### Results -/

/-- C1: at a book-ticker update for BTCUSDT (bid 105, ask 106) received by a
client holding one strategy on BTCUSDT with an open long trade (entry 100,
quantity 2), the handler writes the quote into the cache but then indexes
the cache with the literal key `'symbol'`; the lookup raises `KeyError`,
which the `except RuntimeError` clause does not catch, and the trade's pnl
is left at 0 instead of the (105 - 100) * 2 = 10 the spec requires. -/
theorem c1_pnl_indexes_literal_symbol_key :
    on_message c1State c1Msg =
      (.error (.keyError "symbol"),
       { c1State with prices := [("BTCUSDT", { bid := 105, ask := 106 })] }) ∧
    ((on_message c1State c1Msg).2.strategies.map fun kv => kv.2.trades.map Trade.pnl) =
      [[0]] := by
  simp +decide [on_message, json_loads, c1State, c1Msg, c1Strategy, c1Trade,
    pricesUpsert, dictLookup, pnlStrats, pnlTrades, pnlTrade, catchRuntime]

/-- C2 counterexample: an aggregated-trade event for ETHUSDT dispatched to
two registered ETHUSDT strategies, the first of which raises from its tick
callback.  `on_message` does not return normally — the exception escapes —
and the second strategy receives nothing, refuting the claim that callback
errors are caught at the dispatch boundary and that sibling strategies
still receive the tick. -/
theorem c2_callback_error_escapes :
    on_message c2State (.parsed c2Json) = (.error (.callbackExc 7), c2State) ∧
    ((on_message c2State (.parsed c2Json)).2.strategies.map fun kv => kv.2.ticks) =
      [[], []] := by
  simp +decide [on_message, json_loads, c2State, c2Json, c2BadStrat, c2OkStrat,
    aggStrats, stratTick]

/-- The aggregated-trade dispatch loop stops at the first raising strategy:
strategies before it that match the symbol have recorded the tick, the
raising one and everything after it are untouched, and the exception is
returned unhandled. -/
theorem aggStrats_error (sym : String) (p q : Rat) (t : Nat) (ex : PyExc)
    (pre post : List (Nat × Strategy)) (k : Nat) (bad : Strategy)
    (hpre : ∀ s ∈ pre, s.2.contract.symbol = sym → s.2.tick_raises = none)
    (hbad : bad.contract.symbol = sym) (hraise : bad.tick_raises = some ex) :
    aggStrats sym p q t (pre ++ (k, bad) :: post) =
      (.error ex,
       (pre.map fun s =>
          if s.2.contract.symbol = sym then (s.1, tickRecord s.2 p q t) else s) ++
       (k, bad) :: post) := by
  induction pre with
  | nil => simp [aggStrats, hbad, stratTick, hraise]
  | cons hd tl ih =>
      obtain ⟨k0, s0⟩ := hd
      by_cases hm : s0.contract.symbol = sym
      · have hnone : s0.tick_raises = none := hpre (k0, s0) (by simp) hm
        simp [aggStrats, hm, stratTick, hnone,
          ih fun s hs h => hpre s (by simp [hs]) h]
      · simp [aggStrats, hm, ih fun s hs h => hpre s (by simp [hs]) h]

/-- C2 amended: the dispatcher catches only `RuntimeError`, and only around
the book-ticker PnL loop; an exception raised by a strategy callback during
aggregated-trade dispatch propagates out of `on_message`, the matching
strategies registered before the raising one have received the event, and
the raising one and all later strategies are left untouched (so they do
not receive it). -/
theorem c2_dispatch_not_isolated (st : ClientState) (j : JsonMsg) (ex : PyExc)
    (pre post : List (Nat × Strategy)) (k : Nat) (bad : Strategy)
    (he : j.e = some "aggTrade")
    (hs : st.strategies = pre ++ (k, bad) :: post)
    (hpre : ∀ s ∈ pre, s.2.contract.symbol = j.s → s.2.tick_raises = none)
    (hbad : bad.contract.symbol = j.s)
    (hraise : bad.tick_raises = some ex) :
    on_message st (.parsed j) =
      (.error ex,
       { st with strategies :=
          (pre.map fun s =>
            if s.2.contract.symbol = j.s then (s.1, tickRecord s.2 j.p j.q j.t) else s) ++
          (k, bad) :: post }) ∧
    catchRuntime (.error .runtimeError) = .ok () ∧
    (∀ e, e ≠ PyExc.runtimeError → catchRuntime (.error e) = .error e) := by
  refine ⟨?_, rfl, ?_⟩
  · simp only [on_message, json_loads, he]
    rw [if_pos trivial, hs,
      aggStrats_error j.s j.p j.q j.t ex pre post k bad hpre hbad hraise,
      if_neg (by decide)]
  · intro e he'
    cases e <;> simp [catchRuntime] at he' ⊢

/-- C2 witness: the amended statement at a concrete input — healthy
strategy registered before the raising one; the healthy one records the
tick, the exception still escapes. -/
theorem c2_dispatch_not_isolated_witness :
    on_message c2wState (.parsed c2Json) =
      (.error (.callbackExc 7),
       { c2wState with strategies :=
          [(5, tickRecord c2OkStrat 1900 3 777), (6, c2BadStrat)] }) := by
  have h := (c2_dispatch_not_isolated c2wState c2Json (.callbackExc 7)
    [(5, c2OkStrat)] [] 6 c2BadStrat rfl rfl (by decide) (by decide) (by decide)).1
  simpa +decide [c2OkStrat, c2Json] using h

/-- C3 counterexample: a transport failure during the bid/ask snapshot for
a never-quoted symbol raises `KeyError` to the caller, and a transport
failure during the balance query raises `TypeError` — refuting the claim
that every REST operation surfaces failures as an absent result without
raising. -/
theorem c3_failures_raise :
    get_bid_ask c3State c3Contract .transportError =
      (.error (.keyError "BTCUSDT"), c3State) ∧
    get_balances (.transportError : RestOutcome AccountData) = .error .typeError := by
  simp +decide [get_bid_ask, get_balances, make_request, c3State, c3Contract, dictLookup]

/-- C3 amended: the request primitive itself does return an absent result
on a transport failure or non-200 response for each of GET/POST/DELETE;
but on a failed request `get_bid_ask` falls through to
`return self.prices[contract.symbol]`, yielding the stale cached quote when
one exists and raising `KeyError` otherwise, and `get_balances` subscripts
the absent result and raises `TypeError`. -/
theorem c3_absent_result_amended :
    (∀ (α : Type) (out : RestOutcome α) (method : String),
        method = "GET" ∨ method = "POST" ∨ method = "DELETE" →
        out.isFailure = true → make_request method out = .ok none) ∧
    (∀ (st : ClientState) (c : Contract) (out : RestOutcome ObData),
        out.isFailure = true →
        get_bid_ask st c out =
          match dictLookup st.prices c.symbol with
          | some q => (.ok q, st)
          | none => (.error (.keyError c.symbol), st)) ∧
    (∀ out : RestOutcome AccountData,
        out.isFailure = true → get_balances out = .error .typeError) := by
  have hmk : ∀ (α : Type) (out : RestOutcome α) (method : String),
      method = "GET" ∨ method = "POST" ∨ method = "DELETE" →
      out.isFailure = true → make_request method out = .ok none := by
    intro α out method hm hf
    unfold make_request
    rw [if_pos hm]
    cases out with
    | transportError => rfl
    | response status body =>
        simp [RestOutcome.isFailure] at hf
        simp [hf]
  refine ⟨hmk, ?_, ?_⟩
  · intro st c out hf
    unfold get_bid_ask
    rw [hmk ObData out "GET" (Or.inl rfl) hf]
  · intro out hf
    unfold get_balances
    rw [hmk AccountData out "GET" (Or.inl rfl) hf]

/-- C3 witness: the amended statement at concrete inputs — a 400 response
yields an absent result from `make_request`, a 503 during the snapshot
returns the stale cached quote, and a transport failure during the balance
query raises `TypeError`. -/
theorem c3_absent_result_amended_witness :
    make_request "POST" (.response 400 (0 : Nat)) = .ok none ∧
    get_bid_ask c3wState c3Contract (.response 503 { bidPrice := 1, askPrice := 2 }) =
      (.ok { bid := 9, ask := 10 }, c3wState) ∧
    get_balances (.transportError : RestOutcome AccountData) = .error .typeError := by
  refine ⟨c3_absent_result_amended.1 Nat _ "POST" (Or.inr (Or.inl rfl)) (by decide),
    ?_, c3_absent_result_amended.2.2 _ (by decide)⟩
  have h := c3_absent_result_amended.2.1 c3wState c3Contract
    (.response 503 { bidPrice := 1, askPrice := 2 }) (by decide)
  rw [h]
  simp +decide [c3wState, c3Contract, dictLookup]

/-- C8 counterexample: a malformed (non-JSON) frame makes `json.loads`
raise, and the exception escapes `on_message` — refuting the claim that
the handler returns normally on malformed input (the client state is
indeed left unchanged). -/
theorem c8_malformed_raises :
    on_message c8State .malformed = (.error .jsonDecodeError, c8State) := rfl

/-- C8 amended: valid JSON frames with no event-type discriminator or an
unrecognized discriminator value are ignored — `on_message` returns
normally with the state unchanged; but a malformed frame raises a JSON
decode error out of `on_message` (with the state unchanged). -/
theorem c8_unrecognized_ignored (st : ClientState) (j : JsonMsg) :
    on_message st .malformed = (.error .jsonDecodeError, st) ∧
    (j.e = none → on_message st (.parsed j) = (.ok (), st)) ∧
    (∀ ev, j.e = some ev → ev ≠ "bookTicker" → ev ≠ "aggTrade" →
        on_message st (.parsed j) = (.ok (), st)) := by
  refine ⟨rfl, ?_, ?_⟩
  · intro h
    simp [on_message, json_loads, h]
  · intro ev h h1 h2
    simp [on_message, json_loads, h, h1, h2]

/-- C8 witness: the amended statement at concrete inputs — an unknown
`depth` event and a message with no event field both leave a populated
client unchanged. -/
theorem c8_unrecognized_ignored_witness :
    on_message c8State (.parsed c8UnknownJson) = (.ok (), c8State) ∧
    on_message c8State (.parsed c8NoEventJson) = (.ok (), c8State) :=
  ⟨(c8_unrecognized_ignored c8State c8UnknownJson).2.2 "depth" rfl
      (by decide) (by decide),
   (c8_unrecognized_ignored c8State c8NoEventJson).2.1 rfl⟩

/-- Python's integer `round` fixes integers. -/
theorem pyRound_intCast (n : Int) : pyRound (n : Rat) = n := by
  unfold pyRound
  norm_num [Int.floor_intCast]

/-- `round(x, 8)` fixes any integer multiple of a lot size that is itself
an exact multiple of 10^-8. -/
theorem pyRound8_intMul (z m : Int) (lot : Rat) (h : lot * 100000000 = (m : Rat)) :
    pyRound8 ((z : Rat) * lot) = (z : Rat) * lot := by
  have h2 : (z : Rat) * lot * 100000000 = ((z * m : Int) : Rat) := by
    push_cast
    rw [mul_assoc, h]
  unfold pyRound8
  rw [h2, pyRound_intCast]
  have hlot : lot = (m : Rat) / 100000000 := by
    rw [eq_div_iff (by norm_num)]
    exact h
  rw [hlot]
  push_cast
  ring

/-- C4: with a successful balance snapshot, `get_trade_size` returns the
spec's sizing — `(wallet * pct / 100) / price` rounded to the nearest
multiple of the lot size — when USDT is held, and an absent result when it
is not.  Stated for nonzero price and lot size (Python raises
`ZeroDivisionError` at zero, which the rational embedding does not model)
and for lot sizes that are exact multiples of 10^-8, so that the final
`round(_, 8)` is the identity. -/
theorem c4_trade_size_spec (balance : List (String × Balance)) (c : Contract)
    (price pct : Rat) (_hp : price ≠ 0) (_hl : c.lot_size ≠ 0)
    (m : Int) (hm : c.lot_size * 100000000 = (m : Rat)) :
    get_trade_size (.ok balance) c price pct =
      .ok ((dictLookup balance "USDT").map fun bal =>
            trade_size_spec bal.wallet_balance price pct c.lot_size) := by
  unfold get_trade_size
  cases h : dictLookup balance "USDT" with
  | none => simp [h]
  | some bal =>
      simp only [h, Option.map_some']
      have harg : bal.wallet_balance * (pct / 100) / price / c.lot_size =
          bal.wallet_balance * pct / 100 / price / c.lot_size := by ring
      rw [harg]
      unfold trade_size_spec
      rw [pyRound8_intMul _ m c.lot_size hm]

/-- C4 witness: the spec's example — balance 1000 USDT, 10 percent,
price 50, lot size 0.01 — sizes to exactly 2. -/
theorem c4_trade_size_spec_witness :
    get_trade_size (.ok [("USDT", { wallet_balance := 1000 })])
      { symbol := "BTCUSDT", lot_size := 1/100 } 50 10 = .ok (some 2) := by
  have h := c4_trade_size_spec [("USDT", { wallet_balance := 1000 })]
    { symbol := "BTCUSDT", lot_size := 1/100 } 50 10 (by norm_num) (by norm_num)
    1000000 (by norm_num)
  rw [h]
  norm_num [dictLookup, trade_size_spec, pyRound]

/-- C5: the signer is a pure function of the secret key and the ordered
parameter list — two clients sharing a secret produce identical signatures
whatever their other state — and it computes exactly the lowercase-hex
HMAC-SHA256 of the url-encoded, order-preserving parameter concatenation
keyed by the secret. -/
theorem c5_signature_deterministic (st st' : ClientState)
    (data : List (String × String)) (h : st.secret_key = st'.secret_key) :
    st.generate_signature data = st'.generate_signature data ∧
    st.generate_signature data =
      hexDigest (hmacSha256 (strBytes st.secret_key) (strBytes (urlencode data))) := by
  constructor
  · unfold ClientState.generate_signature
    rw [h]
  · rfl

set_option maxRecDepth 100000

/-- C5 witness: two differently-populated clients with the same secret
agree on a concrete parameter list, and the signature matches the
reference vector computed with CPython's `urllib.parse.urlencode`,
`hmac` and `hashlib.sha256`. -/
theorem c5_signature_deterministic_witness :
    c5StateA.generate_signature c5Params = c5StateB.generate_signature c5Params ∧
    c5StateA.generate_signature c5Params =
      "b97037e477e50011ee544c9d26ac9d2b4fb659b9be3fce05dbf451711758004e" :=
  ⟨(c5_signature_deterministic c5StateA c5StateB c5Params rfl).1, by decide⟩

/-- C6: each subscribe call tags its request with the session's current
counter and increments the counter by one whatever the send outcome, so
the ids across any sequence of subscribe calls are the consecutive range
starting at the initial counter — in particular strictly increasing. -/
theorem c6_subscribe_ids_increase :
    (∀ (st : ClientState) (contracts : List Contract) (channel : String) (ok : Bool),
      (subscribe_channel st contracts channel ok).1.id = st.ws_id ∧
      (subscribe_channel st contracts channel ok).2.ws_id = st.ws_id + 1) ∧
    (∀ (st : ClientState) (calls : List (List Contract × String × Bool)),
      (runSubscribes st calls).map SubMsg.id = List.range' st.ws_id calls.length) ∧
    (∀ (st : ClientState) (calls : List (List Contract × String × Bool)),
      List.Pairwise (· < ·) ((runSubscribes st calls).map SubMsg.id)) := by
  have hids : ∀ (calls : List (List Contract × String × Bool)) (st : ClientState),
      (runSubscribes st calls).map SubMsg.id = List.range' st.ws_id calls.length := by
    intro calls
    induction calls with
    | nil => intro st; rfl
    | cons hd tl ih =>
        intro st
        obtain ⟨cs, ch, ok⟩ := hd
        simp [runSubscribes, subscribe_channel, List.range', ih]
  refine ⟨fun st cs ch ok => ⟨rfl, rfl⟩, fun st calls => hids calls st, ?_⟩
  intro st calls
  rw [hids calls st]
  simp [List.pairwise_iff_get]

/-- A lookup that misses the first list continues in the second. -/
theorem dictLookup_append_of_none {α : Type} (m l : List (String × α)) (k : String)
    (h : dictLookup m k = none) : dictLookup (m ++ l) k = dictLookup l k := by
  induction m with
  | nil => rfl
  | cons hd tl ih =>
      obtain ⟨k', v⟩ := hd
      by_cases hk : k' = k
      · simp [dictLookup, hk] at h
      · simp only [dictLookup, hk, if_false, List.cons_append] at h ⊢
        exact ih h

/-- Updating the value under a key changes only that key's value. -/
theorem dictMapAt_lookup {α : Type} (m : List (String × α)) (k : String) (g : α → α) :
    dictLookup (dictMapAt m k g) k = (dictLookup m k).map g := by
  induction m with
  | nil => rfl
  | cons hd tl ih =>
      obtain ⟨k', v⟩ := hd
      by_cases hk : k' = k
      · simp [dictMapAt, dictLookup, hk]
      · simp [dictMapAt, dictLookup, hk, ih]

/-- Updating a value never changes the key set. -/
theorem dictMapAt_keys {α : Type} (m : List (String × α)) (k : String) (g : α → α) :
    (dictMapAt m k g).map Prod.fst = m.map Prod.fst := by
  induction m with
  | nil => rfl
  | cons hd tl ih =>
      obtain ⟨k', v⟩ := hd
      simp [dictMapAt, ih]

/-- The insert branch of the price-cache write. -/
theorem pricesUpsert_of_none (m : List (String × Quote)) (sym : String) (b a : Rat)
    (h : dictLookup m sym = none) :
    pricesUpsert m sym b a = m ++ [(sym, { bid := b, ask := a })] := by
  unfold pricesUpsert
  rw [h]

/-- The update branch of the price-cache write. -/
theorem pricesUpsert_of_some (m : List (String × Quote)) (sym : String) (b a : Rat)
    (q : Quote) (h : dictLookup m sym = some q) :
    pricesUpsert m sym b a =
      dictMapAt (dictMapAt m sym fun q => { q with bid := b }) sym
        fun q => { q with ask := a } := by
  unfold pricesUpsert
  rw [h]

/-- After an upsert, the symbol maps to exactly the written quote: both
fields come from the same update. -/
theorem pricesUpsert_lookup (m : List (String × Quote)) (sym : String) (b a : Rat) :
    dictLookup (pricesUpsert m sym b a) sym = some { bid := b, ask := a } := by
  cases h : dictLookup m sym with
  | none =>
      rw [pricesUpsert_of_none m sym b a h, dictLookup_append_of_none m _ sym h]
      simp [dictLookup]
  | some q =>
      rw [pricesUpsert_of_some m sym b a q h, dictMapAt_lookup, dictMapAt_lookup, h]
      rfl

/-- An upsert never removes a symbol from the cache. -/
theorem pricesUpsert_keys (m : List (String × Quote)) (sym : String) (b a : Rat) :
    m.map Prod.fst ⊆ (pricesUpsert m sym b a).map Prod.fst := by
  cases h : dictLookup m sym with
  | none =>
      rw [pricesUpsert_of_none m sym b a h]
      simp only [List.map_append]
      exact List.subset_append_left _ _
  | some q =>
      rw [pricesUpsert_of_some m sym b a q h, dictMapAt_keys, dictMapAt_keys]
      exact fun x hx => hx

/-- `on_message` either leaves the price cache alone or upserts the
incoming book-ticker quote. -/
theorem on_message_prices (st : ClientState) (msg : StreamMsg) :
    (on_message st msg).2.prices = st.prices ∨
    (∃ j, msg = .parsed j ∧
      (on_message st msg).2.prices = pricesUpsert st.prices j.s j.b j.a) := by
  cases msg with
  | malformed => left; rfl
  | parsed j =>
      unfold on_message json_loads
      dsimp only
      cases j.e with
      | none => left; rfl
      | some ev =>
          by_cases h1 : ev = "bookTicker"
          · right
            exact ⟨j, rfl, by simp [h1]⟩
          · by_cases h2 : ev = "aggTrade"
            · left; simp [h1, h2]
            · left; simp [h1, h2]

/-- `get_bid_ask` either leaves the price cache alone or upserts the
snapshot quote. -/
theorem get_bid_ask_prices (st : ClientState) (c : Contract) (out : RestOutcome ObData) :
    (get_bid_ask st c out).2.prices = st.prices ∨
    (∃ ob : ObData, (get_bid_ask st c out).2.prices =
      pricesUpsert st.prices c.symbol ob.bidPrice ob.askPrice) := by
  unfold get_bid_ask
  cases hr : make_request "GET" out with
  | error ex => left; rfl
  | ok obData =>
      dsimp only
      cases obData with
      | none =>
          cases h : dictLookup st.prices c.symbol <;> simp [h]
      | some ob =>
          right
          refine ⟨ob, ?_⟩
          cases h : dictLookup (pricesUpsert st.prices c.symbol ob.bidPrice ob.askPrice) c.symbol <;>
            simp [h]

/-- One cache-writing operation never loses a symbol. -/
theorem cacheStep_keys (st : ClientState) (op : CacheOp) :
    priceKeys st ⊆ priceKeys (cacheStep st op) := by
  cases op with
  | stream msg =>
      unfold cacheStep priceKeys
      rcases on_message_prices st msg with h | ⟨j, _, h⟩ <;> rw [h]
      · exact fun x hx => hx
      · exact pricesUpsert_keys st.prices j.s j.b j.a
  | snapshot c out =>
      unfold cacheStep priceKeys
      rcases get_bid_ask_prices st c out with h | ⟨ob, h⟩ <;> rw [h]
      · exact fun x hx => hx
      · exact pricesUpsert_keys st.prices c.symbol ob.bidPrice ob.askPrice

/-- C7: every write to the market-data cache sets both fields of the
symbol's quote as one unit, and neither the streaming handler nor the REST
snapshot ever removes a symbol — over any sequence of cache-writing
operations the set of cached symbols grows monotonically. -/
theorem c7_cache_monotone :
    (∀ (m : List (String × Quote)) (sym : String) (b a : Rat),
      dictLookup (pricesUpsert m sym b a) sym = some { bid := b, ask := a }) ∧
    (∀ (st : ClientState) (op : CacheOp), priceKeys st ⊆ priceKeys (cacheStep st op)) ∧
    (∀ (st : ClientState) (ops : List CacheOp),
      priceKeys st ⊆ priceKeys (runCacheOps st ops)) := by
  refine ⟨pricesUpsert_lookup, cacheStep_keys, ?_⟩
  intro st ops
  induction ops generalizing st with
  | nil => exact fun x hx => hx
  | cons op tl ih =>
      exact fun x hx => ih (cacheStep st op) (cacheStep_keys st op hx)

/-- Once an iteration of the reconnect loop is not reached, no later one
is. -/
theorem wsAlive_false_mono (flag : Nat → Bool) (n : Nat)
    (h : wsAlive flag n = false) : ∀ m, n ≤ m → wsAlive flag m = false := by
  intro m hm
  induction m, hm using Nat.le_induction with
  | base => exact h
  | succ m hm ih => simp [wsAlive, ih]

/-- C9: when a reached iteration reads the reconnect flag as cleared, the
loop breaks — no connect attempt then or at any later iteration; when a
reached iteration reads the flag as set, it runs the connection and then
sleeps the fixed 2-second backoff, and if the flag is still set at the
next check the next connect attempt follows immediately after that single
backoff. -/
theorem c9_reconnect_loop (flag : Nat → Bool) (n : Nat) :
    (wsAlive flag n = true → flag n = false →
      wsIter flag n = [.exitLoop] ∧
      (∀ m, n ≤ m → wsConnects flag m = false) ∧
      (∀ m, n < m → wsIter flag m = [])) ∧
    (wsConnects flag n = true →
      wsIter flag n = [.runConn, .backoff 2] ∧
      (flag (n + 1) = true → wsConnects flag (n + 1) = true ∧
        wsIter flag (n + 1) = [.runConn, .backoff 2])) := by
  constructor
  · intro ha hf
    have hdead : wsAlive flag (n + 1) = false := by simp [wsAlive, hf]
    refine ⟨by simp [wsIter, ha, hf], ?_, ?_⟩
    · intro m hm
      rcases Nat.eq_or_lt_of_le hm with rfl | hlt
      · simp [wsConnects, ha, hf]
      · have hm' : wsAlive flag m = false := wsAlive_false_mono flag (n + 1) hdead m hlt
        simp [wsConnects, hm']
    · intro m hm
      have hm' : wsAlive flag m = false := wsAlive_false_mono flag (n + 1) hdead m hm
      simp [wsIter, hm']
  · intro hc
    obtain ⟨ha, hf⟩ := Bool.and_eq_true_iff.mp hc
    have ha1 : wsAlive flag (n + 1) = true := by simp [wsAlive, ha, hf]
    refine ⟨by simp [wsIter, ha, hf], fun hf1 => ⟨by simp [wsConnects, ha1, hf1], ?_⟩⟩
    simp [wsIter, ha1, hf1]

/-- C9 witness: with the flag set for iterations 0 and 1 and cleared from
iteration 2 on, the loop connects twice with one backoff between, exits at
iteration 2, and never connects again. -/
theorem c9_reconnect_loop_witness :
    wsIter c9Flag 0 = [.runConn, .backoff 2] ∧
    wsIter c9Flag 1 = [.runConn, .backoff 2] ∧
    wsIter c9Flag 2 = [.exitLoop] ∧
    wsConnects c9Flag 5 = false ∧
    wsIter c9Flag 3 = [] := by
  have h2 := (c9_reconnect_loop c9Flag 2).1 (by decide) (by decide)
  have h0 := (c9_reconnect_loop c9Flag 0).2 (by decide)
  exact ⟨h0.1, (h0.2 (by decide)).2, h2.1, h2.2.1 5 (by decide), h2.2.2 3 (by decide)⟩

/-- A failed request yields `None` from `make_request` for the three
supported verbs. -/
theorem make_request_failed {α : Type} (out : RestOutcome α) (method : String)
    (hm : method = "GET" ∨ method = "POST" ∨ method = "DELETE")
    (hf : out.isFailure = true) : make_request method out = .ok none := by
  unfold make_request
  rw [if_pos hm]
  cases out with
  | transportError => rfl
  | response status body =>
      simp [RestOutcome.isFailure] at hf
      simp [hf]

/-- A lookup misses exactly when the key is not in the key list. -/
theorem dictLookup_eq_none {α : Type} (m : List (String × α)) (k : String) :
    dictLookup m k = none ↔ k ∉ m.map Prod.fst := by
  induction m with
  | nil => simp [dictLookup]
  | cons hd tl ih =>
      obtain ⟨k', v⟩ := hd
      by_cases hk : k' = k
      · subst hk
        simp [dictLookup]
      · simp [dictLookup, hk, ih, Ne.symm hk]

/-- The contracts loop over distinct fresh symbols appends exactly the
non-BUSD entries in order. -/
theorem contractsFold_char (l : List ContractData) : ∀ acc : List (String × Contract),
    (∀ cd ∈ l, dictLookup acc cd.symbol = none) →
    (l.map ContractData.symbol).Nodup →
    contractsFold acc l =
      acc ++ (l.filter fun cd => cd.marginAsset != "BUSD").map
        (fun cd => (cd.symbol, { symbol := cd.symbol, lot_size := cd.lot_size })) := by
  induction l with
  | nil => intro acc _ _; simp [contractsFold]
  | cons cd tl ih =>
      intro acc hfresh hnodup
      rw [List.map_cons, List.nodup_cons] at hnodup
      have hpair := hnodup
      by_cases hb : cd.marginAsset ≠ "BUSD"
      · have hnone : dictLookup acc cd.symbol = none := hfresh cd (by simp)
        have hset : dictSet acc cd.symbol { symbol := cd.symbol, lot_size := cd.lot_size } =
            acc ++ [(cd.symbol, { symbol := cd.symbol, lot_size := cd.lot_size })] := by
          unfold dictSet
          rw [hnone]
        have hfresh' : ∀ cd' ∈ tl,
            dictLookup (acc ++ [(cd.symbol, { symbol := cd.symbol, lot_size := cd.lot_size })])
              cd'.symbol = none := by
          intro cd' hcd'
          rw [dictLookup_append_of_none _ _ _ (hfresh cd' (by simp [hcd']))]
          have hne : cd.symbol ≠ cd'.symbol := by
            intro hcontra
            exact hpair.1 (hcontra ▸ List.mem_map_of_mem ContractData.symbol hcd')
          simp [dictLookup, hne]
        have hstep : contractsFold acc (cd :: tl) =
            contractsFold
              (acc ++ [(cd.symbol, { symbol := cd.symbol, lot_size := cd.lot_size })]) tl := by
          conv_lhs => rw [contractsFold]
          rw [if_pos hb, hset]
        rw [hstep, ih _ hfresh' hpair.2]
        simp [List.filter_cons, hb]
      · push_neg at hb
        have hstep : contractsFold acc (cd :: tl) = contractsFold acc tl := by
          conv_lhs => rw [contractsFold]
          rw [if_neg (by simp [hb])]
        rw [hstep, ih acc (fun cd' h => hfresh cd' (by simp [h])) hpair.2]
        simp [List.filter_cons, hb]

/-- C10: a failed exchange-info request makes `get_contracts` return an
absent result (not an empty mapping); on success with distinct exchange
symbols, the returned mapping holds exactly the symbols whose margin asset
differs from BUSD, and the symbol of every BUSD-margined entry is absent
from it. -/
theorem c10_contracts_filtered (out : RestOutcome ExchangeData) (info : ExchangeData)
    (hout : out.isFailure = true)
    (hnodup : (info.symbols.map ContractData.symbol).Nodup) :
    get_contracts out = .ok none ∧
    get_contracts (.response 200 info) =
      .ok (some ((info.symbols.filter fun cd => cd.marginAsset != "BUSD").map
        fun cd => (cd.symbol, { symbol := cd.symbol, lot_size := cd.lot_size }))) ∧
    (∀ cd ∈ info.symbols, cd.marginAsset = "BUSD" →
      dictLookup (contractsFold [] info.symbols) cd.symbol = none) := by
  have hchar := contractsFold_char info.symbols [] (fun cd _ => rfl) hnodup
  refine ⟨?_, ?_, ?_⟩
  · unfold get_contracts
    rw [make_request_failed out "GET" (Or.inl rfl) hout]
  · unfold get_contracts
    rw [show make_request "GET" (.response 200 info) = .ok (some info) from rfl]
    dsimp only
    rw [hchar, List.nil_append]
  · intro cd hcd hbusd
    rw [hchar]
    simp only [List.nil_append]
    rw [dictLookup_eq_none, List.map_map]
    intro hmem
    obtain ⟨cd', hcd', heq⟩ := List.mem_map.mp hmem
    have hcd'mem : cd' ∈ info.symbols := (List.mem_filter.mp hcd').1
    have hcd'f : (cd'.marginAsset != "BUSD") = true := (List.mem_filter.mp hcd').2
    have heq' : cd' = cd := List.inj_on_of_nodup_map hnodup hcd'mem hcd heq
    subst heq'
    simp [hbusd] at hcd'f

/-- C10 witness: of a USDT-margined and a BUSD-margined symbol, only the
former is returned, and a transport failure yields an absent result. -/
theorem c10_contracts_filtered_witness :
    get_contracts (.response 200 c10Data) =
      .ok (some [("BTCUSDT", { symbol := "BTCUSDT", lot_size := 1/1000 })]) ∧
    get_contracts (RestOutcome.transportError : RestOutcome ExchangeData) = .ok none ∧
    dictLookup (contractsFold [] c10Data.symbols) "BTCBUSD" = none := by
  have h := c10_contracts_filtered .transportError c10Data (by decide) (by decide)
  refine ⟨?_, h.1, ?_⟩
  · rw [h.2.1]
    simp +decide [c10Data]
  · exact h.2.2 { symbol := "BTCBUSD", marginAsset := "BUSD", lot_size := 1/10 }
      (by simp [c10Data]) rfl

end Futures
